import Mathlib

/-!
Shallow embedding of the `ztd::text::execution` encoding object
(src/include/ztd/text/execution.hpp, the portable non-Windows code path of
`encode_one` and `decode_one`), together with theorems checking the
specification's claims about it.

Modelling conventions:
* Code units (`char`) and code points (`char32_t`) are modelled as `Nat`.
* The platform C runtime (`std::c32rtomb` / `std::mbrtoc32` over
  `std::mbstate_t`) is an opaque capability; it is a parameter
  (`mb_platform σ`, where `σ` stands for `std::mbstate_t`).  The sentinel
  values `(size_t)-2`, `(size_t)-3`, `(size_t)-1`, `0` and a positive count
  returned by `mbrtoc32` are modelled by the constructors of `mb_result`.
* An input range is a `List Nat`; an output range is modelled by its
  remaining capacity (`outSpace : Nat`) plus the trace of elements written
  through it so far (`written : List Nat`).  Writing through the output
  iterator appends to `written` and decrements the capacity.
* A result (`decode_result` / `encode_result`) mirrors the four fields of
  `ztd::text::decode_result` / `encode_result`: the reconstructed input
  remainder, the output (written trace plus remaining capacity), the state
  and the error code.
* An error handler is a function from the partial result and the span of
  problematic units (or points) to a result; its return value is returned
  verbatim by the operation.  The compile-time
  `is_ignorable_error_handler_v` switch is the `ignorable : Bool` argument:
  when it is `true` every block guarded by `if constexpr (__call_error_handler)`
  in the source is compiled out.
* Paths on which the C++ source has no defined behaviour (writing through an
  exhausted output iterator, dereferencing the end of the input, or falling
  off the end of the function, all of which are reachable only with an
  ignorable handler) are modelled as `none`; every defined path returns
  `some` result.
-/

namespace ZtdText

/-- The `ztd::text::encoding_error` taxonomy. -/
inductive encoding_error where
  | ok
  | invalid_sequence
  | incomplete_sequence
  | insufficient_output_space
deriving DecidableEq

/-- Classification of the `::std::size_t __res` value returned by the
platform primitive `std::mbrtoc32`, exactly as the `switch (__res)` in
`decode_one` distinguishes it: `(size_t)-2` (incomplete, need more units),
`(size_t)-3` (a code point was produced and more output is still pending in
the state), `(size_t)-1` (invalid), `0` (null terminator) and the `default`
case (a positive count: one code point produced).  The constructors carry
the stored `char32_t` and the updated shift state where the source reads
them back. -/
inductive mb_result (σ : Type) where
  | incomplete : mb_result σ
  | pending (cp : Nat) (st : σ) : mb_result σ
  | invalid : mb_result σ
  | null_char : mb_result σ
  | produced (cp : Nat) (st : σ) : mb_result σ

/-- The opaque platform C runtime used by `execution`.

* `mbLenMax` is the platform's `MB_LEN_MAX` (= `execution::max_code_units`).
* `mbrtoc32 buf st` models `::std::mbrtoc32(&out, &buf[0], buf.size(), &st)`
  on the accumulated buffer `buf` of code units (the source always passes a
  copy of the caller's state here).
* `mbrtoc32_flush st` models the zero-length probe
  `::std::mbrtoc32(&out, nullptr, 0, &st)` used to drain a pending second
  code point; it returns the updated state together with `some (cp, more)`
  (stored code point, and whether the return value was `(size_t)-3`, i.e.
  still more output pending) or `none` for a `(size_t)-1` return.
* `c32rtomb cp st` models `::std::c32rtomb(buf, cp, &st)`: the updated state
  together with `some` list of narrow units written (the return count) or
  `none` for a `(size_t)-1` failure. -/
structure mb_platform (σ : Type) where
  mbLenMax : Nat
  mbrtoc32 : List Nat → σ → mb_result σ
  mbrtoc32_flush : σ → σ × Option (Nat × Bool)
  c32rtomb : Nat → σ → σ × Option (List Nat)

/-- `execution::__decode_state`: the `std::mbstate_t` shift state plus the
`__output_pending` flag. -/
structure decode_state (σ : Type) where
  narrow_state : σ
  output_pending : Bool
deriving DecidableEq

/-- `execution::__encode_state`: same shape as the decode state (the encode
path never touches `__output_pending`, but the member exists). -/
structure encode_state (σ : Type) where
  narrow_state : σ
  output_pending : Bool
deriving DecidableEq

/-- `ztd::text::decode_result`: reconstructed input remainder, output
(written trace and remaining capacity), state, and error code. -/
structure decode_result (σ : Type) where
  input : List Nat
  written : List Nat
  outSpace : Nat
  state : decode_state σ
  error_code : encoding_error
deriving DecidableEq

/-- `ztd::text::encode_result`: reconstructed input remainder, output
(written trace and remaining capacity), state, and error code. -/
structure encode_result (σ : Type) where
  input : List Nat
  written : List Nat
  outSpace : Nat
  state : encode_state σ
  error_code : encoding_error
deriving DecidableEq

/-- A decode error handler: receives the partial result and the span of
problematic code units, and its return value becomes the operation's
result. -/
abbrev DHandler (σ : Type) := decode_result σ → List Nat → decode_result σ

/-- An encode error handler: receives the partial result and the span of
problematic code points. -/
abbrev EHandler (σ : Type) := encode_result σ → List Nat → encode_result σ

/-- The unit-at-a-time copy loop of `encode_one`
(`for (auto __intermediary_it = __intermediary_output; __res-- > 0; ...)`):
given the units produced by `c32rtomb` and the remaining output capacity,
returns the units written, the capacity left, and the units left unwritten
when the output ran out. -/
def copy_units : List Nat → Nat → List Nat × Nat × List Nat
  | [], sp => ([], sp, [])
  | u :: us, 0 => ([], 0, u :: us)
  | u :: us, sp + 1 =>
    let r := copy_units us sp
    (u :: r.1, r.2.1, r.2.2)

/-- `execution::encode_one` (the portable branch, execution.hpp lines
309-369): empty-input check, exhausted-output check (only when the handler
is not ignorable), read one code point, `c32rtomb` on the caller's state,
invalid-sequence check, then the unit-at-a-time copy with a mid-copy
exhausted-output check.  `none` models the undefined continuations reachable
only with an ignorable handler (the `__res-- > 0` copy loop running with
`__res == (size_t)-1`, or writing through an exhausted output iterator). -/
def encode_one {σ : Type} (P : mb_platform σ) (ignorable : Bool) (h : EHandler σ)
    (input : List Nat) (outSpace : Nat) (s : encode_state σ) :
    Option (encode_result σ) :=
  match input with
  | [] => some ⟨[], [], outSpace, s, encoding_error.ok⟩
  | c :: rest =>
    if ignorable = false ∧ outSpace = 0 then
      some (h ⟨c :: rest, [], 0, s, encoding_error.insufficient_output_space⟩ [])
    else
      match P.c32rtomb c s.narrow_state with
      | (ns, none) =>
        match ignorable with
        | true => none
        | false =>
          some (h ⟨rest, [], outSpace, ⟨ns, s.output_pending⟩,
            encoding_error.invalid_sequence⟩ [c])
      | (ns, some us) =>
        match copy_units us outSpace with
        | (w, spLeft, []) =>
          some ⟨rest, w, spLeft, ⟨ns, s.output_pending⟩, encoding_error.ok⟩
        | (w, _, _ :: _) =>
          match ignorable with
          | true => none
          | false =>
            some (h ⟨rest, w, 0, ⟨ns, s.output_pending⟩,
              encoding_error.insufficient_output_space⟩ [c])

/-- The consume loop of `decode_one` (execution.hpp lines 542-626).
`fuel` is `max_code_units - __state_offset`: the iterations left before the
bounded accumulation gives up; `acc` is the contents of
`__intermediary_input[0 .. __state_offset)`.  Each iteration consumes one
input unit into the buffer and calls `mbrtoc32` on a copy of the caller's
state (`__preserved_state`), which is committed back only on the
`(size_t)-3` and `default` (success) cases.  When the loop exhausts
`max_code_units` units: with a handler, `incomplete_sequence` is reported;
with an ignorable handler the source constructs a result and falls off the
end of the function without returning it (modelled as `none`).
Dereferencing the exhausted input (reachable only with an ignorable
handler) is likewise `none`. -/
def decode_one_loop {σ : Type} (P : mb_platform σ) (ignorable : Bool) (h : DHandler σ)
    (s : decode_state σ) (outSpace : Nat) :
    Nat → List Nat → List Nat → Option (decode_result σ)
  | 0, buf, input =>
    match ignorable with
    | true => none
    | false => some (h ⟨input, [], outSpace, s, encoding_error.incomplete_sequence⟩ buf)
  | fuel + 1, acc, input =>
    match input with
    | [] => none
    | u :: rest =>
      match P.mbrtoc32 (acc ++ [u]) s.narrow_state with
      | mb_result.incomplete =>
        match ignorable, rest with
        | false, [] =>
          some (h ⟨[], [], outSpace, s, encoding_error.incomplete_sequence⟩ (acc ++ [u]))
        | _, _ => decode_one_loop P ignorable h s outSpace fuel (acc ++ [u]) rest
      | mb_result.pending cp ns =>
        match outSpace with
        | 0 => none
        | sp + 1 => some ⟨rest, [cp], sp, ⟨ns, true⟩, encoding_error.ok⟩
      | mb_result.invalid =>
        match ignorable with
        | true => decode_one_loop P ignorable h s outSpace fuel (acc ++ [u]) rest
        | false => some (h ⟨rest, [], outSpace, s, encoding_error.invalid_sequence⟩ (acc ++ [u]))
      | mb_result.null_char => some ⟨rest, [], outSpace, s, encoding_error.ok⟩
      | mb_result.produced cp ns =>
        match outSpace with
        | 0 => none
        | sp + 1 => some ⟨rest, [cp], sp, ⟨ns, s.output_pending⟩, encoding_error.ok⟩

/-- `execution::decode_one` (the portable branch, execution.hpp lines
396-627): empty-input check, exhausted-output check (only when the handler
is not ignorable), then either the `__output_pending` drain via the
zero-length `mbrtoc32` probe, or the bounded consume loop.  On the drain
path the probe updates the caller's state in place; `__output_pending` is
set to whether the probe returned `(size_t)-3` again.  On a `(size_t)-1`
probe with an ignorable handler the source writes the zero-initialised
`__intermediary_output[0]` (= 0) and reports `ok`. -/
def decode_one {σ : Type} (P : mb_platform σ) (ignorable : Bool) (h : DHandler σ)
    (input : List Nat) (outSpace : Nat) (s : decode_state σ) :
    Option (decode_result σ) :=
  match input with
  | [] => some ⟨[], [], outSpace, s, encoding_error.ok⟩
  | u :: rest =>
    if ignorable = false ∧ outSpace = 0 then
      some (h ⟨u :: rest, [], 0, s, encoding_error.insufficient_output_space⟩ [])
    else
      match s.output_pending with
      | true =>
        match P.mbrtoc32_flush s.narrow_state with
        | (ns, none) =>
          match ignorable with
          | false =>
            some (h ⟨u :: rest, [], outSpace, ⟨ns, true⟩,
              encoding_error.invalid_sequence⟩ [])
          | true =>
            match outSpace with
            | 0 => none
            | sp + 1 => some ⟨u :: rest, [0], sp, ⟨ns, false⟩, encoding_error.ok⟩
        | (ns, some (cp, more)) =>
          match outSpace with
          | 0 => none
          | sp + 1 => some ⟨u :: rest, [cp], sp, ⟨ns, more⟩, encoding_error.ok⟩
      | false => decode_one_loop P ignorable h s outSpace P.mbLenMax [] (u :: rest)

/-! ### Concrete platforms and handlers used as test instances

The shift state of these instances is `Unit`; they exercise the control flow
of `encode_one`/`decode_one` for specific primitive behaviours. -/

/-- A pass-through decode error handler: returns the partial result
unchanged (the engine returns its value verbatim). -/
def passD : DHandler Unit := fun r _ => r

/-- A pass-through encode error handler. -/
def passE : EHandler Unit := fun r _ => r

/-- A stateless single-byte locale: each unit below 256 is its own code
point, the zero unit is the null terminator, code point 1000 encodes to the
two units `[65, 66]`, and code points that are neither below 256 nor 1000
are unrepresentable. -/
def P_ascii : mb_platform Unit where
  mbLenMax := 2
  mbrtoc32 := fun buf _ =>
    match buf with
    | [c] => if c = 0 then mb_result.null_char else mb_result.produced c ()
    | _ => mb_result.invalid
  mbrtoc32_flush := fun _ => ((), none)
  c32rtomb := fun c _ =>
    ((), if c < 256 then some [c] else if c = 1000 then some [65, 66] else none)

/-- A platform whose zero-length drain probe succeeds, yielding code point
77 with no further output pending. -/
def P_drain : mb_platform Unit where
  mbLenMax := 2
  mbrtoc32 := fun _ _ => mb_result.invalid
  mbrtoc32_flush := fun _ => ((), some (77, false))
  c32rtomb := fun _ _ => ((), none)

/-- A platform whose zero-length drain probe reports `(size_t)-1`
(invalid). -/
def P_probe_bad : mb_platform Unit where
  mbLenMax := 2
  mbrtoc32 := fun _ _ => mb_result.invalid
  mbrtoc32_flush := fun _ => ((), none)
  c32rtomb := fun _ _ => ((), none)

/-- A platform on which every `mbrtoc32` attempt reports `(size_t)-2`
(incomplete). -/
def P_inc : mb_platform Unit where
  mbLenMax := 2
  mbrtoc32 := fun _ _ => mb_result.incomplete
  mbrtoc32_flush := fun _ => ((), none)
  c32rtomb := fun _ _ => ((), none)

/-! ### Helper lemmas about the copy loop and the consume loop -/

/-- Copying a unit list into exactly as much space as it needs writes all of
it. -/
theorem copy_units_exact : ∀ us : List Nat, copy_units us us.length = (us, 0, [])
  | [] => rfl
  | u :: us => by simp [copy_units, copy_units_exact us]

/-- Copying a unit list into strictly less space than it needs writes the
prefix that fits and leaves the rest unwritten. -/
theorem copy_units_overflow : ∀ (us : List Nat) (sp : Nat), sp < us.length →
    copy_units us sp = (us.take sp, 0, us.drop sp)
  | [], _, h => absurd h (by simp)
  | _ :: _, 0, _ => rfl
  | u :: us, sp + 1, h => by
    have ih := copy_units_overflow us sp (by simpa using h)
    simp [copy_units, ih]

/-- Taking one element past a left factor of an append picks up exactly the
next element. -/
theorem take_succ_append {α : Type} : ∀ (pre : List α) (m : α) (R : List α),
    (pre ++ m :: R).take (pre.length + 1) = pre ++ [m]
  | [], _, _ => rfl
  | p :: ps, m, R => congrArg (List.cons p) (take_succ_append ps m R)

/-- Walking the consume loop: as long as every proper prefix of the unit
sequence `pre ++ mid ++ [u]` beyond the units already accumulated in `pre`
is classified `(size_t)-2` (incomplete) by the platform, the loop marches
through `mid` one unit at a time (each attempt re-running on a copy of the
entry state) and reaches the configuration in which the full sequence is
about to be attempted. -/
theorem decode_one_loop_walk {σ : Type} (P : mb_platform σ) (h : DHandler σ)
    (s : decode_state σ) (outSpace : Nat) (extra : List Nat) (u : Nat) :
    ∀ (mid pre : List Nat) (fuel : Nat),
      (∀ k, pre.length < k → k < (pre ++ mid ++ [u]).length →
        P.mbrtoc32 ((pre ++ mid ++ [u]).take k) s.narrow_state = mb_result.incomplete) →
      decode_one_loop P false h s outSpace (mid.length + fuel + 1) pre (mid ++ u :: extra)
        = decode_one_loop P false h s outSpace (fuel + 1) (pre ++ mid) (u :: extra) := by
  intro mid
  induction mid with
  | nil => intro pre fuel _; simp
  | cons m mid ih =>
    intro pre fuel hinc
    have hlist : pre ++ (m :: mid) ++ [u] = pre ++ m :: (mid ++ [u]) := by simp
    have hstep : P.mbrtoc32 (pre ++ [m]) s.narrow_state = mb_result.incomplete := by
      have hk := hinc (pre.length + 1) (Nat.lt_succ_self _)
        (by simp only [List.length_append, List.length_cons]; omega)
      rwa [hlist, take_succ_append] at hk
    have hne : ∃ a l, mid ++ u :: extra = a :: l := by
      cases mid with
      | nil => exact ⟨u, extra, rfl⟩
      | cons a l => exact ⟨a, l ++ u :: extra, rfl⟩
    obtain ⟨a, l, hal⟩ := hne
    have hrec : decode_one_loop P false h s outSpace (mid.length + fuel + 1 + 1) pre
        (m :: (mid ++ u :: extra))
        = decode_one_loop P false h s outSpace (mid.length + fuel + 1) (pre ++ [m])
            (mid ++ u :: extra) := by
      rw [hal]
      simp only [decode_one_loop, hstep]
    have ihx := ih (pre ++ [m]) fuel (by
      intro k hk1 hk2
      have : pre ++ [m] ++ mid ++ [u] = pre ++ (m :: mid) ++ [u] := by simp
      rw [this]
      exact hinc k (by simp at hk1 ⊢; omega) (by simpa [this] using hk2))
    calc decode_one_loop P false h s outSpace ((m :: mid).length + fuel + 1) pre
          ((m :: mid) ++ u :: extra)
        = decode_one_loop P false h s outSpace (mid.length + fuel + 1) (pre ++ [m])
            (mid ++ u :: extra) := by
          simpa [Nat.add_assoc, Nat.add_comm, Nat.add_left_comm] using hrec
      _ = decode_one_loop P false h s outSpace (fuel + 1) ((pre ++ [m]) ++ mid)
            (u :: extra) := ihx
      _ = decode_one_loop P false h s outSpace (fuel + 1) (pre ++ m :: mid)
            (u :: extra) := by simp

/-- With a state-preserving (e.g. pass-through) handler, every `some` result
of the consume loop that carries `incomplete_sequence` or
`invalid_sequence` carries the entry state: the loop runs the platform
primitive on a copy (`__preserved_state`) and only commits it on success. -/
theorem decode_one_loop_state {σ : Type} (P : mb_platform σ) (h : DHandler σ)
    (hpres : ∀ r sp, (h r sp).state = r.state) (s : decode_state σ) (outSpace : Nat) :
    ∀ (fuel : Nat) (acc input : List Nat) (r : decode_result σ),
      decode_one_loop P false h s outSpace fuel acc input = some r →
      r.error_code = encoding_error.incomplete_sequence ∨
        r.error_code = encoding_error.invalid_sequence →
      r.state = s := by
  intro fuel
  induction fuel with
  | zero =>
    intro acc input r hr _
    simp only [decode_one_loop] at hr
    cases hr
    exact hpres _ _
  | succ fuel ih =>
    intro acc input r hr herr
    cases input with
    | nil => simp [decode_one_loop] at hr
    | cons u rest =>
      simp only [decode_one_loop] at hr
      cases hm : P.mbrtoc32 (acc ++ [u]) s.narrow_state with
      | incomplete =>
        rw [hm] at hr
        cases rest with
        | nil =>
          simp only at hr
          cases hr
          exact hpres _ _
        | cons a l =>
          simp only at hr
          exact ih _ _ _ hr herr
      | pending cp ns =>
        rw [hm] at hr
        cases outSpace with
        | zero => simp at hr
        | succ sp =>
          simp only at hr
          cases hr
          rcases herr with he | he <;> simp at he
      | invalid =>
        rw [hm] at hr
        simp only at hr
        cases hr
        exact hpres _ _
      | null_char =>
        rw [hm] at hr
        simp only at hr
        cases hr
        rfl
      | produced cp ns =>
        rw [hm] at hr
        cases outSpace with
        | zero => simp at hr
        | succ sp =>
          simp only at hr
          cases hr
          rcases herr with he | he <;> simp at he

/-- With an ignorable handler, a platform that keeps answering
`(size_t)-2` drives the consume loop into one of its undefined
continuations: either the next iteration dereferences the exhausted input,
or the bounded accumulation runs out and the function falls off its end
(the built result is discarded, never returned). -/
theorem decode_one_loop_ignorable_incomplete {σ : Type} (P : mb_platform σ)
    (h : DHandler σ) (s : decode_state σ) (outSpace : Nat)
    (hinc : ∀ buf, P.mbrtoc32 buf s.narrow_state = mb_result.incomplete) :
    ∀ (fuel : Nat) (acc input : List Nat),
      decode_one_loop P true h s outSpace fuel acc input = none := by
  intro fuel
  induction fuel with
  | zero => intro acc input; rfl
  | succ fuel ih =>
    intro acc input
    cases input with
    | nil => rfl
    | cons u rest => simp only [decode_one_loop, hinc]; exact ih _ _

/-! ### Claim theorems -/

/-- Claim C4: for every state (including one with `output_pending` set),
every output capacity (including an exhausted one) and any error handler,
both `decode_one` and `encode_one` on an empty input return `ok` with
nothing consumed and nothing produced, and the state untouched — the
empty-input check precedes the output-space check, so an exhausted output
causes no error when the input is empty. -/
theorem C4_empty_input_ok {σ : Type} (P : mb_platform σ) (ign : Bool)
    (hD : DHandler σ) (hE : EHandler σ) (outSpace : Nat)
    (sd : decode_state σ) (se : encode_state σ) :
    decode_one P ign hD [] outSpace sd
        = some ⟨[], [], outSpace, sd, encoding_error.ok⟩
    ∧ encode_one P ign hE [] outSpace se
        = some ⟨[], [], outSpace, se, encoding_error.ok⟩ :=
  ⟨rfl, rfl⟩

/-- Claim C10: with a non-ignorable handler, `decode_one` on a non-empty
input and an exhausted output reports `insufficient_output_space` through
the handler before consuming any input, before the `output_pending` drain
and before touching the state; the handler receives the untouched partial
result and an empty code-unit span, and its return value is returned
verbatim. -/
theorem C10_zero_output_before_drain {σ : Type} (P : mb_platform σ)
    (hD : DHandler σ) (u : Nat) (rest : List Nat) (s : decode_state σ) :
    decode_one P false hD (u :: rest) 0 s
      = some (hD ⟨u :: rest, [], 0, s, encoding_error.insufficient_output_space⟩ []) :=
  rfl

/-- Claim C5 (as amended): with a non-ignorable handler, `encode_one` on a
non-empty input and a zero-length output reports
`insufficient_output_space` through the handler, with nothing consumed and
an empty code-point span. -/
theorem C5_zero_output_insufficient {σ : Type} (P : mb_platform σ)
    (hE : EHandler σ) (c : Nat) (rest : List Nat) (s : encode_state σ) :
    encode_one P false hE (c :: rest) 0 s
      = some (hE ⟨c :: rest, [], 0, s, encoding_error.insufficient_output_space⟩ []) :=
  rfl

/-- Claim C5, counterexample to the claim as stated: the claim quantifies
over every input range, but on an empty input the empty-input check (line
314) fires before the output-space check (line 323), so encoding an empty
input into a zero-length output returns `ok`, not
`insufficient_output_space`. -/
theorem C5_counterexample :
    encode_one P_ascii false passE [] 0 ⟨(), false⟩
        = some ⟨[], [], 0, ⟨(), false⟩, encoding_error.ok⟩
    ∧ encoding_error.ok ≠ encoding_error.insufficient_output_space :=
  ⟨rfl, by decide⟩

/-- Claim C6: when the platform cannot represent the code point
(`c32rtomb` returns `(size_t)-1`), `encode_one` (with a non-ignorable
handler and non-exhausted output) reports `invalid_sequence` through the
handler; the partial result has the input advanced past the consumed code
point and the output untouched, the state is whatever the primitive left in
the caller's `mbstate_t`, and the span holds exactly that single code
point. -/
theorem C6_unrepresentable_invalid {σ : Type} (P : mb_platform σ)
    (hE : EHandler σ) (c : Nat) (rest : List Nat) (sp : Nat)
    (s : encode_state σ) (ns : σ)
    (hfail : P.c32rtomb c s.narrow_state = (ns, none)) :
    encode_one P false hE (c :: rest) (sp + 1) s
      = some (hE ⟨rest, [], sp + 1, ⟨ns, s.output_pending⟩,
          encoding_error.invalid_sequence⟩ [c]) := by
  simp [encode_one, hfail]

/-- Witness for C6 at a concrete instance: code point 2000 is
unrepresentable in `P_ascii`. -/
theorem C6_witness :
    encode_one P_ascii false passE [2000] 1 ⟨(), false⟩
      = some ⟨[], [], 1, ⟨(), false⟩, encoding_error.invalid_sequence⟩ :=
  C6_unrepresentable_invalid P_ascii passE 2000 [] 0 ⟨(), false⟩ () rfl

/-- Claim C7: when the produced units outgrow the output mid-copy,
`encode_one` reports `insufficient_output_space` through the handler; the
partial result keeps the units already written (the partial write is not
rolled back, and the output position sits right after the last written
unit, with no room left), the input stays advanced past the consumed code
point, and the span exposes the unconverted code point. -/
theorem C7_partial_copy_insufficient {σ : Type} (P : mb_platform σ)
    (hE : EHandler σ) (c : Nat) (rest : List Nat) (sp : Nat)
    (s : encode_state σ) (ns : σ) (us : List Nat)
    (hsucc : P.c32rtomb c s.narrow_state = (ns, some us))
    (hover : sp + 1 < us.length) :
    encode_one P false hE (c :: rest) (sp + 1) s
      = some (hE ⟨rest, us.take (sp + 1), 0, ⟨ns, s.output_pending⟩,
          encoding_error.insufficient_output_space⟩ [c]) := by
  have hcopy := copy_units_overflow us (sp + 1) hover
  have hdrop : ∃ d ds, us.drop (sp + 1) = d :: ds := by
    have hlen : 0 < (us.drop (sp + 1)).length := by
      rw [List.length_drop]; omega
    cases hd : us.drop (sp + 1) with
    | nil => rw [hd] at hlen; simp at hlen
    | cons d ds => exact ⟨d, ds, rfl⟩
  obtain ⟨d, ds, hd⟩ := hdrop
  rw [hd] at hcopy
  simp [encode_one, hsucc, hcopy]

/-- Witness for C7 at a concrete instance: code point 1000 needs the two
units `[65, 66]` but only one slot is available; the first unit stays
written. -/
theorem C7_witness :
    encode_one P_ascii false passE [1000] 1 ⟨(), false⟩
      = some ⟨[], [65], 0, ⟨(), false⟩, encoding_error.insufficient_output_space⟩ :=
  C7_partial_copy_insufficient P_ascii passE 1000 [] 0 ⟨(), false⟩ () [65, 66] rfl
    (by decide)

/-- Claim C2 (as amended): a `decode_one` call on a state with
`output_pending = true` that actually reaches the drain (non-empty input,
output space available) and whose zero-length probe succeeds consumes no
input, writes the drained code point, sets `output_pending` again exactly
when the probe reports further pending output, and returns `ok` — so a
fully-drained state re-enters the ordinary consume loop on the next call,
never double-draining.  This holds for ignorable and non-ignorable handlers
alike. -/
theorem C2_drain_flush {σ : Type} (P : mb_platform σ) (ign : Bool)
    (hD : DHandler σ) (u : Nat) (rest : List Nat) (sp : Nat)
    (s : decode_state σ) (cp : Nat) (more : Bool) (ns : σ)
    (hpend : s.output_pending = true)
    (hprobe : P.mbrtoc32_flush s.narrow_state = (ns, some (cp, more))) :
    decode_one P ign hD (u :: rest) (sp + 1) s
      = some ⟨u :: rest, [cp], sp, ⟨ns, more⟩, encoding_error.ok⟩ := by
  simp [decode_one, hpend, hprobe]

/-- Witness for C2 at a concrete instance: draining on `P_drain` yields
code point 77, clears the flag, and consumes nothing. -/
theorem C2_witness :
    decode_one P_drain false passD [9] 1 ⟨(), true⟩
      = some ⟨[9], [77], 0, ⟨(), false⟩, encoding_error.ok⟩ :=
  C2_drain_flush P_drain false passD 9 [] 0 ⟨(), true⟩ 77 false () rfl rfl

/-- Claim C2, counterexample to the claim as stated: the claim promises
`ok` for every call on an `output_pending` state, but when the zero-length
probe reports `(size_t)-1` the source (lines 522-533) routes
`invalid_sequence` through the handler instead (still consuming no
input). -/
theorem C2_counterexample :
    decode_one P_probe_bad false passD [9] 1 ⟨(), true⟩
        = some ⟨[9], [], 1, ⟨(), true⟩, encoding_error.invalid_sequence⟩
    ∧ encoding_error.invalid_sequence ≠ encoding_error.ok :=
  ⟨rfl, by decide⟩

/-- Claim C1 (as amended): for every code point the platform can represent
(its `c32rtomb` yields a non-empty unit sequence within the `MB_LEN_MAX`
bound) and whose full unit sequence decodes back through the ordinary
produced-code-point classification (every proper prefix incomplete, the
full sequence produced as `c` — this excludes the null character, whose
decode takes the null-terminator branch), encoding with `encode_one` and
decoding the produced units with `decode_one` round-trips to exactly `c`,
with `ok` on both calls and no handler involvement. -/
theorem C1_round_trip {σ : Type} (P : mb_platform σ) (hE : EHandler σ) (hD : DHandler σ)
    (c : Nat) (us : List Nat) (se : encode_state σ) (sd : decode_state σ) (se' ns : σ)
    (henc : P.c32rtomb c se.narrow_state = (se', some us))
    (hne : us ≠ [])
    (hlen : us.length ≤ P.mbLenMax)
    (hpend : sd.output_pending = false)
    (hpre : ∀ k, 0 < k → k < us.length →
      P.mbrtoc32 (us.take k) sd.narrow_state = mb_result.incomplete)
    (hfull : P.mbrtoc32 us sd.narrow_state = mb_result.produced c ns) :
    encode_one P false hE [c] us.length se
        = some ⟨[], us, 0, ⟨se', se.output_pending⟩, encoding_error.ok⟩
    ∧ decode_one P false hD us 1 sd
        = some ⟨[], [c], 0, ⟨ns, false⟩, encoding_error.ok⟩ := by
  constructor
  · simp [encode_one, henc, copy_units_exact, hne]
  · obtain ⟨mid, u, hmid⟩ : ∃ mid u, us = mid ++ [u] :=
      ⟨us.dropLast, us.getLast hne, (List.dropLast_append_getLast hne).symm⟩
    obtain ⟨fuel, hfuel⟩ : ∃ fuel, P.mbLenMax = mid.length + fuel + 1 := by
      have hlen1 : us.length = mid.length + 1 := by rw [hmid]; simp
      exact ⟨P.mbLenMax - us.length, by omega⟩
    obtain ⟨u0, us0, hus⟩ := List.exists_cons_of_ne_nil hne
    rw [hmid] at hpre hfull
    have hstart : decode_one P false hD us 1 sd
        = decode_one_loop P false hD sd 1 P.mbLenMax [] us := by
      rw [hus]
      simp [decode_one, hpend]
    rw [hstart, hmid, hfuel]
    have hwalk := decode_one_loop_walk P hD sd 1 [] u mid [] fuel (by
      intro k h1 h2
      simpa using hpre k (by simpa using h1) (by simpa using h2))
    rw [hwalk]
    simp [decode_one_loop, hfull, hpend]

/-- Witness for C1 at a concrete instance: code point 65 round-trips
through the single unit 65 on `P_ascii`. -/
theorem C1_witness :
    encode_one P_ascii false passE [65] 1 ⟨(), false⟩
        = some ⟨[], [65], 0, ⟨(), false⟩, encoding_error.ok⟩
    ∧ decode_one P_ascii false passD [65] 1 ⟨(), false⟩
        = some ⟨[], [65], 0, ⟨(), false⟩, encoding_error.ok⟩ :=
  C1_round_trip P_ascii passE passD 65 [65] ⟨(), false⟩ ⟨(), false⟩ () ()
    rfl (by decide) (by decide) rfl
    (by intro k h1 h2; simp at h2; omega) rfl

/-- Claim C1, counterexample to the claim as stated: the null character is
representable (`c32rtomb` emits the single zero unit, and the round trip is
claimed for every representable code point), but decoding that unit hits
the null-terminator branch (line 595), which returns `ok` without writing
any code point — the round trip loses U+0000. -/
theorem C1_counterexample :
    encode_one P_ascii false passE [0] 1 ⟨(), false⟩
        = some ⟨[], [0], 0, ⟨(), false⟩, encoding_error.ok⟩
    ∧ decode_one P_ascii false passD [0] 1 ⟨(), false⟩
        = some ⟨[], [], 1, ⟨(), false⟩, encoding_error.ok⟩
    ∧ ([] : List Nat) ≠ [0] :=
  ⟨rfl, rfl, by decide⟩

/-- Claim C8 (as amended): when the platform classifies the accumulated
units as a null terminator, `decode_one` returns `ok` with the input
advanced past the consumed units, but — unlike every other success path —
it writes nothing to the output (the output position is unchanged) and does
not commit the preserved shift state back to the caller's state. -/
theorem C8_null_terminator_no_write {σ : Type} (P : mb_platform σ) (hD : DHandler σ)
    (us extra : List Nat) (sp : Nat) (sd : decode_state σ)
    (hne : us ≠ [])
    (hlen : us.length ≤ P.mbLenMax)
    (hpend : sd.output_pending = false)
    (hpre : ∀ k, 0 < k → k < us.length →
      P.mbrtoc32 (us.take k) sd.narrow_state = mb_result.incomplete)
    (hnull : P.mbrtoc32 us sd.narrow_state = mb_result.null_char) :
    decode_one P false hD (us ++ extra) (sp + 1) sd
      = some ⟨extra, [], sp + 1, sd, encoding_error.ok⟩ := by
  obtain ⟨mid, u, hmid⟩ : ∃ mid u, us = mid ++ [u] :=
    ⟨us.dropLast, us.getLast hne, (List.dropLast_append_getLast hne).symm⟩
  obtain ⟨fuel, hfuel⟩ : ∃ fuel, P.mbLenMax = mid.length + fuel + 1 := by
    have hlen1 : us.length = mid.length + 1 := by rw [hmid]; simp
    exact ⟨P.mbLenMax - us.length, by omega⟩
  obtain ⟨u0, us0, hus⟩ := List.exists_cons_of_ne_nil hne
  rw [hmid] at hpre hnull
  have hstart : decode_one P false hD (us ++ extra) (sp + 1) sd
      = decode_one_loop P false hD sd (sp + 1) P.mbLenMax [] (us ++ extra) := by
    rw [hus]
    simp [decode_one, hpend]
  rw [hstart, hmid, hfuel, List.append_assoc, List.singleton_append]
  have hwalk := decode_one_loop_walk P hD sd (sp + 1) extra u mid [] fuel (by
    intro k h1 h2
    simpa using hpre k (by simpa using h1) (by simpa using h2))
  rw [hwalk]
  simp [decode_one_loop, hnull]

/-- Witness for C8's amended statement at a concrete instance: on
`P_ascii`, decoding the zero unit followed by further input consumes the
zero unit, writes nothing, and returns `ok`. -/
theorem C8_witness :
    decode_one P_ascii false passD ([0] ++ [7]) 1 ⟨(), false⟩
      = some ⟨[7], [], 1, ⟨(), false⟩, encoding_error.ok⟩ :=
  C8_null_terminator_no_write P_ascii passD [0] [7] 0 ⟨(), false⟩
    (by decide) (by decide) rfl
    (by intro k h1 h2; simp at h2; omega) rfl

/-- Claim C8, counterexample to the claim as stated: decoding the zero byte
returns `ok` with the input advanced, but the zero code point is not
written and the output is not advanced — not "exactly as for any other
single-code-point success". -/
theorem C8_counterexample :
    decode_one P_ascii false passD [0, 5] 1 ⟨(), false⟩
        = some ⟨[5], [], 1, ⟨(), false⟩, encoding_error.ok⟩
    ∧ ([] : List Nat) ≠ [0] :=
  ⟨rfl, by decide⟩

/-- Claim C3: in the consume loop every `mbrtoc32` attempt runs on a copy
(`__preserved_state`) of the caller's decode state, committed back only on
success; hence whenever `decode_one` (with a state-preserving handler)
yields a result carrying `incomplete_sequence` or `invalid_sequence`, the
caller's state — shift state and `output_pending` flag — is exactly the
entry state. -/
theorem C3_state_unchanged_on_error {σ : Type} (P : mb_platform σ) (hD : DHandler σ)
    (hpres : ∀ r sp, (hD r sp).state = r.state)
    (input : List Nat) (outSpace : Nat) (s : decode_state σ)
    (hpend : s.output_pending = false) (r : decode_result σ)
    (hres : decode_one P false hD input outSpace s = some r)
    (herr : r.error_code = encoding_error.incomplete_sequence ∨
      r.error_code = encoding_error.invalid_sequence) :
    r.state = s := by
  cases input with
  | nil =>
    simp only [decode_one] at hres
    cases hres
    rfl
  | cons u rest =>
    simp only [decode_one] at hres
    by_cases h0 : outSpace = 0
    · rw [if_pos (by exact ⟨by trivial, h0⟩)] at hres
      cases hres
      exact hpres _ _
    · rw [if_neg (by rintro ⟨-, hh⟩; exact h0 hh), hpend] at hres
      exact decode_one_loop_state P hD hpres s outSpace _ _ _ r hres herr

/-- Witness for C3 at a concrete instance: `P_inc` reports an incomplete
sequence on the single unit 1; the state handed back is the entry state. -/
theorem C3_witness :
    (⟨[], [], 1, ⟨(), false⟩, encoding_error.incomplete_sequence⟩ :
        decode_result Unit).state
      = ⟨(), false⟩ :=
  C3_state_unchanged_on_error P_inc passD (fun _ _ => rfl) [1] 1 ⟨(), false⟩ rfl
    ⟨[], [], 1, ⟨(), false⟩, encoding_error.incomplete_sequence⟩ rfl (Or.inl rfl)

/-- Claim C9, counterexample to the claim as stated: with an ignorable
handler, failing calls do not return a result carrying the classified
error code.  Decoding under a platform that keeps reporting incomplete, the
source skips the exhaustion checks, reads past the end of the input or
falls off the end of the function (the result it builds there carries `ok`
and is discarded); encoding an unrepresentable code point (the claim's own
example), the `(size_t)-1` check is compiled out and the copy loop runs
with `__res == (size_t)-1`.  The model yields no result at all in either
case. -/
theorem C9_counterexample :
    decode_one P_inc true passD [1, 1, 1] 1 ⟨(), false⟩ = none
    ∧ encode_one P_ascii true passE [2000] 1 ⟨(), false⟩ = none :=
  ⟨rfl, rfl⟩

/-- Claim C9 (as amended): with an ignorable handler the failing paths of
both operations do not return the classified error code, because every
failure check is compiled out together with the handler invocation.  In
`decode_one`, under a platform that keeps answering incomplete, every
non-empty input reaches an undefined continuation (no defined result: the
exhausted input is dereferenced, or the function falls off its end).  In
`encode_one`, a `(size_t)-1` from `c32rtomb` leaves the copy loop running
with `__res == (size_t)-1`, and produced units outgrowing the output are
written through the exhausted output iterator — both undefined
continuations (no defined result). -/
theorem C9_ignorable_undefined {σ : Type} (P : mb_platform σ) (hD : DHandler σ)
    (hE : EHandler σ) :
    (∀ (u : Nat) (rest : List Nat) (outSpace : Nat) (s : decode_state σ),
      s.output_pending = false →
      (∀ buf, P.mbrtoc32 buf s.narrow_state = mb_result.incomplete) →
      decode_one P true hD (u :: rest) outSpace s = none)
    ∧ (∀ (c : Nat) (rest : List Nat) (outSpace : Nat) (es : encode_state σ) (ns : σ),
      P.c32rtomb c es.narrow_state = (ns, none) →
      encode_one P true hE (c :: rest) outSpace es = none)
    ∧ (∀ (c : Nat) (rest : List Nat) (outSpace : Nat) (es : encode_state σ) (ns : σ)
        (us : List Nat),
      P.c32rtomb c es.narrow_state = (ns, some us) → outSpace < us.length →
      encode_one P true hE (c :: rest) outSpace es = none) := by
  refine ⟨?_, ?_, ?_⟩
  · intro u rest outSpace s hpend hinc
    simp [decode_one, hpend,
      decode_one_loop_ignorable_incomplete P hD s outSpace hinc]
  · intro c rest outSpace es ns hfail
    simp [encode_one, hfail]
  · intro c rest outSpace es ns us hsucc hover
    have hcopy := copy_units_overflow us outSpace hover
    have hdrop : ∃ d ds, us.drop outSpace = d :: ds := by
      have hlen : 0 < (us.drop outSpace).length := by
        rw [List.length_drop]; omega
      cases hd : us.drop outSpace with
      | nil => rw [hd] at hlen; simp at hlen
      | cons d ds => exact ⟨d, ds, rfl⟩
    obtain ⟨d, ds, hd⟩ := hdrop
    rw [hd] at hcopy
    simp [encode_one, hsucc, hcopy]

/-- Witness for C9's amended statement at concrete instances: the decode
and unrepresentable-code-point parts on `P_inc` (whose `c32rtomb` always
fails), and the out-of-space part on `P_ascii` (code point 1000 produces
`[65, 66]`, which outgrows a one-slot output). -/
theorem C9_witness :
    decode_one P_inc true passD [2] 1 ⟨(), false⟩ = none
    ∧ encode_one P_inc true passE [3] 1 ⟨(), false⟩ = none
    ∧ encode_one P_ascii true passE [1000] 1 ⟨(), false⟩ = none :=
  ⟨(C9_ignorable_undefined P_inc passD passE).1 2 [] 1 ⟨(), false⟩ rfl (fun _ => rfl),
   (C9_ignorable_undefined P_inc passD passE).2.1 3 [] 1 ⟨(), false⟩ () rfl,
   (C9_ignorable_undefined P_ascii passD passE).2.2 1000 [] 1 ⟨(), false⟩ () [65, 66]
     rfl (by decide)⟩

end ZtdText
